import Mathlib

/-!
Verification of the igc_lab flight pipeline.

The development shallowly embeds the parts of the repository the claims
touch: the B-record deduplication loop of `ScrapedFlight.create_from_file`
(src/scraped.py), the LSCR annotation-line parsing of the same class, and
the per-flight normalisation and aggregation of
`pdflight.flights_to_dataframes` (src/pdflight.py), together with the
driver policy of src/foo.py.  Float timestamps and column values are
modelled as exact rationals; pandas frames are modelled as lists of rows;
a raised exception is modelled as `Except.error`.
-/

namespace IgcLab

/-- One GNSS fix as produced by the external elementary parser
(`GNSSFix.build_from_B_record` of igc_lib): a rational timestamp in
seconds plus the positional, derived-kinematic and state columns that
`flights_to_dataframes` reads from it.  Fields default to harmless values
so that concrete test fixes can set only what matters. -/
structure GNSSFix where
  rawtime : ℚ
  lat : ℚ := 0
  lon : ℚ := 0
  alt : ℚ := 0
  gsp : ℚ := 0
  bearing : ℚ := 0
  bearing_change_rate : ℚ := 0
  flying : Bool := false
  circling : Bool := false
  task : Bool := false
deriving DecidableEq

/-- The deduplication epsilon of src/scraped.py line 27: `1e-5` seconds. -/
def eps : ℚ := 1 / 100000

/-- One iteration of the B-record loop of `ScrapedFlight.create_from_file`
(src/scraped.py lines 24-32): a line whose elementary parse returned
nothing is skipped; otherwise, if there is a previously accepted fix and
the new fix's timestamp is within `eps` of it, the new fix is ignored,
else it is appended. -/
def dedupStep (fixes : List GNSSFix) (parsed : Option GNSSFix) : List GNSSFix :=
  match parsed with
  | none => fixes
  | some fix =>
    match fixes.getLast? with
    | some lastFix =>
      if |fix.rawtime - lastFix.rawtime| < eps then fixes else fixes ++ [fix]
    | none => fixes ++ [fix]

/-- The fix list built by `ScrapedFlight.create_from_file` from the stream
of elementary parse results of the B-record lines, in file order. -/
def buildFixes (parsed : List (Option GNSSFix)) : List GNSSFix :=
  parsed.foldl dedupStep []

/-- Recursive reformulation of the deduplication pass, continuing after an
already accepted fix `lastFix`. -/
def dedupFrom (lastFix : GNSSFix) : List GNSSFix → List GNSSFix
  | [] => []
  | f :: rest =>
    if |f.rawtime - lastFix.rawtime| < eps then dedupFrom lastFix rest
    else f :: dedupFrom f rest

/-- Recursive reformulation of the whole deduplication pass on the stream
of successfully parsed fixes. -/
def dedupList : List GNSSFix → List GNSSFix
  | [] => []
  | f :: rest => f :: dedupFrom f rest

/-- Two fixes at least `eps` apart, the later one later in time. -/
def gapLe (a b : GNSSFix) : Prop := a.rawtime + eps ≤ b.rawtime

/-- Python `s.startswith(p)` (and the slice test `record[0:6] == "LSCR::"`
with a six-character literal), as a character-list prefix test. -/
def strStarts (p s : String) : Bool := p.data.isPrefixOf s.data

/-- The remainder of `s` after the first occurrence of `sep`, scanning
left to right: `s.split(sep, 1)[1]` in Python for nonempty `sep`, and
`[]` when `sep` does not occur (the callers guard occurrence). -/
def restAfter (sep : List Char) : List Char → List Char
  | [] => []
  | c :: rest =>
    if sep.isPrefixOf (c :: rest) then (c :: rest).drop sep.length
    else restAfter sep rest

/-- Python `str.strip()`: drop whitespace from both ends. -/
def trimChars (s : List Char) : List Char :=
  ((s.dropWhile Char.isWhitespace).reverse.dropWhile Char.isWhitespace).reverse

/-- The value extraction of `ScrapedFlight._parse_lscr_record`
(src/scraped.py lines 60-72):
`record.split("::", 1)[1].split(":", 1)[1].strip()`. -/
def lscrValue (record : String) : String :=
  String.mk (trimChars (restAfter [':'] (restAfter [':', ':'] record.data)))

/-- Decimal value of a digit character. -/
def digitVal (c : Char) : ℕ := c.toNat - 48

/-- The value of a nonempty all-digit character list. -/
def digitsVal (s : List Char) : Option ℕ :=
  if s ≠ [] ∧ s.all Char.isDigit then
    some (s.foldl (fun a c => 10 * a + digitVal c) 0)
  else none

/-- Python `int` applied to a stripped decimal string: an optional sign
followed by digits; anything else raises `ValueError`. -/
def parseInt (s : String) : Option ℤ :=
  match s.data with
  | '-' :: rest => (digitsVal rest).map (fun n => -(n : ℤ))
  | '+' :: rest => (digitsVal rest).map (fun n => (n : ℤ))
  | l => (digitsVal l).map (fun n => (n : ℤ))

/-- The flight attributes that `ScrapedFlight._parse_lscr_record` can set,
plus the remaining flight state (represented by the fix list) so that
theorems can say the annotation parser touches nothing else. -/
structure LState where
  start : Option String := none
  finish : Option String := none
  pilot : Option String := none
  competition : Option String := none
  competition_class : Option String := none
  points : Option ℤ := none
  fixes : List GNSSFix := []
deriving DecidableEq

/-- `ScrapedFlight._parse_lscr_record` (src/scraped.py lines 59-72): the
elif chain over the recognised field names; `POINTS` goes through `int`,
whose failure raises (modelled as `Except.error`). -/
def parse_lscr_record (st : LState) (record : String) : Except String LState :=
  if strStarts "LSCR::START:" record then
    .ok { st with start := some (lscrValue record) }
  else if strStarts "LSCR::FINISH:" record then
    .ok { st with finish := some (lscrValue record) }
  else if strStarts "LSCR::POINTS:" record then
    match parseInt (lscrValue record) with
    | some n => .ok { st with points := some n }
    | none => .error ("ValueError: " ++ record)
  else if strStarts "LSCR::CONTESTANT:" record then
    .ok { st with pilot := some (lscrValue record) }
  else if strStarts "LSCR::COMPETITION:" record then
    .ok { st with competition := some (lscrValue record) }
  else if strStarts "LSCR::CLASS:" record then
    .ok { st with competition_class := some (lscrValue record) }
  else .ok st

/-- `ScrapedFlight._parse_l_record` (src/scraped.py lines 55-57): only
lines whose first six characters are `LSCR::` are examined further. -/
def parse_l_record (st : LState) (record : String) : Except String LState :=
  if strStarts "LSCR::" record then parse_lscr_record st record else .ok st

/-- `ScrapedFlight._parse_l_records` (src/scraped.py lines 52-53): the
left-to-right pass over all collected L records. -/
def parse_l_records (st : LState) (records : List String) : Except String LState :=
  records.foldlM parse_l_record st

/-- The last record of the list carrying the given field tag. -/
def lastTagged (tag : String) (records : List String) : Option String :=
  (records.filter (fun r => strStarts tag r)).getLast?

/-- A thermal episode as consumed from the external igc_lib: its enter and
exit fixes. -/
structure Thermal where
  enter_fix : GNSSFix
  exit_fix : GNSSFix
deriving DecidableEq

/-- `Thermal.time_change` of the external igc_lib, per the spec's
`durationSeconds`: exit timestamp minus enter timestamp. -/
def Thermal.time_change (t : Thermal) : ℚ := t.exit_fix.rawtime - t.enter_fix.rawtime

/-- The composite flight identity: (manufacturer code, unique id, date). -/
abbrev FlightKey := String × String × String

/-- The flight aggregate as `flights_to_dataframes` reads it: validity,
identity fields, the metadata set by the annotation parser, the
deduplicated fixes and the thermal episodes. -/
structure Flight where
  valid : Bool
  fr_manuf_code : String
  fr_uniq_id : String
  date : String
  pilot : String
  points : ℤ
  competition : Option String := none
  competition_class : Option String := none
  start : Option String := none
  finish : Option String := none
  fixes : List GNSSFix := []
  thermals : List Thermal := []
deriving DecidableEq

/-- The identity key attached to every row of a flight. -/
def Flight.key (f : Flight) : FlightKey := (f.fr_manuf_code, f.fr_uniq_id, f.date)

/-- One row of the metadata corpus: the `pd.DataFrame` of src/pdflight.py
lines 30-38 (columns `pilot`, `points`, MultiIndex (code, id, date)). -/
structure MetadataRow where
  code : String
  id : String
  date : String
  pilot : String
  points : ℤ
deriving DecidableEq

/-- The index part of a metadata row. -/
def MetadataRow.key (r : MetadataRow) : FlightKey := (r.code, r.id, r.date)

/-- The metadata row built for one flight. -/
def metadataRow (f : Flight) : MetadataRow :=
  { code := f.fr_manuf_code, id := f.fr_uniq_id, date := f.date,
    pilot := f.pilot, points := f.points }

/-- One row of the per-flight fix table after resampling: every column is
optional because resampling and interpolation leave not-a-number holes. -/
structure FixRow where
  lat : Option ℚ
  lon : Option ℚ
  alt : Option ℚ
  gsp : Option ℚ
  bearing : Option ℚ
  bearing_change_rate : Option ℚ
  flying : Option Bool
  circling : Option Bool
  task : Option Bool
deriving DecidableEq

/-- A fix paired with its resampling tick when its timestamp is exactly a
whole second, nothing otherwise. -/
def anchorOf (f : GNSSFix) : Option (ℤ × GNSSFix) :=
  if f.rawtime.den = 1 then some (f.rawtime.num, f) else none

/-- The fixes that land exactly on whole-second resampling ticks, paired
with that second.  `resample('s').asfreq()` (src/pdflight.py line 66)
keeps a value at a tick only when a sample sits exactly on it; every
other sample is dropped. -/
def anchors (fixes : List GNSSFix) : List (ℤ × GNSSFix) :=
  fixes.filterMap anchorOf

/-- The last anchored fix at or before tick `k`. -/
def prevAnchor (fixes : List GNSSFix) (k : ℤ) : Option (ℤ × GNSSFix) :=
  ((anchors fixes).filter (fun p => decide (p.1 ≤ k))).getLast?

/-- The first anchored fix at or after tick `k`. -/
def nextAnchor (fixes : List GNSSFix) (k : ℤ) : Option (ℤ × GNSSFix) :=
  ((anchors fixes).filter (fun p => decide (k ≤ p.1))).head?

/-- pandas `interpolate(method='time')` on one continuous column at tick
`k` (src/pdflight.py lines 69-71): linear in time between the surrounding
known ticks, the last known value after the last known tick, and
not-a-number (None) before the first known tick. -/
def interpCol (fixes : List GNSSFix) (proj : GNSSFix → ℚ) (k : ℤ) : Option ℚ :=
  match prevAnchor fixes k, nextAnchor fixes k with
  | some pa, some pb =>
    if pb.1 = pa.1 then some (proj pa.2)
    else some (proj pa.2 +
      (((k : ℚ) - (pa.1 : ℚ)) / ((pb.1 : ℚ) - (pa.1 : ℚ))) * (proj pb.2 - proj pa.2))
  | some pa, none => some (proj pa.2)
  | none, _ => none

/-- pandas `ffill()` on one boolean column at tick `k` (src/pdflight.py
lines 73-75): the value at the last known tick at or before `k`, and
not-a-number (None) before the first known tick. -/
def ffillCol (fixes : List GNSSFix) (proj : GNSSFix → Bool) (k : ℤ) : Option Bool :=
  (prevAnchor fixes k).map (fun p => proj p.2)

/-- The normalized fix-table row at tick `k`. -/
def rowAt (fixes : List GNSSFix) (k : ℤ) : FixRow :=
  { lat := interpCol fixes (fun f => f.lat) k,
    lon := interpCol fixes (fun f => f.lon) k,
    alt := interpCol fixes (fun f => f.alt) k,
    gsp := interpCol fixes (fun f => f.gsp) k,
    bearing := interpCol fixes (fun f => f.bearing) k,
    bearing_change_rate := interpCol fixes (fun f => f.bearing_change_rate) k,
    flying := ffillCol fixes (fun f => f.flying) k,
    circling := ffillCol fixes (fun f => f.circling) k,
    task := ffillCol fixes (fun f => f.task) k }

/-- The whole-second ticks of `resample('s')`: from the floor of the first
fix timestamp to the floor of the last, one per second. -/
def fixTicks (fixes : List GNSSFix) : List ℤ :=
  match fixes.head?, fixes.getLast? with
  | some f0, some f1 =>
    (List.range (⌊f1.rawtime⌋ - ⌊f0.rawtime⌋ + 1).toNat).map (fun i : ℕ => ⌊f0.rawtime⌋ + (i : ℤ))
  | _, _ => []

/-- The per-flight normalized fix table: one row per tick. -/
def fixTableRows (fixes : List GNSSFix) : List (ℤ × FixRow) :=
  (fixTicks fixes).map (fun k => (k, rowAt fixes k))

/-- The fix-table rows with the flight key attached to the index
(src/pdflight.py lines 78-86). -/
def fixRowsTagged (f : Flight) : List (FlightKey × ℤ × FixRow) :=
  (fixTableRows f.fixes).map (fun p => (f.key, p.1, p.2))

/-- The thermal-duration rows with the flight key attached
(src/pdflight.py lines 89-108): one row per thermal, keyed by its enter
timestamp, value the duration. -/
def thermalRowsTagged (f : Flight) : List (FlightKey × ℚ × ℚ) :=
  f.thermals.map (fun t => (f.key, t.enter_fix.rawtime, t.time_change))

/-- The per-flight output of the loop body of `flights_to_dataframes`. -/
abbrev PerFlight := MetadataRow × List (FlightKey × ℤ × FixRow) × List (FlightKey × ℚ × ℚ)

/-- The message of the validity failure of src/pdflight.py line 27. -/
def invalidMsg (f : Flight) : String :=
  "InvalidFlightError: " ++ f.fr_manuf_code ++ f.fr_uniq_id ++ " " ++ f.date

/-- The message of the duplicate-index failure of src/pdflight.py line 64. -/
def dupMsg (f : Flight) : String :=
  "DuplicateTimestampError: " ++ f.fr_manuf_code ++ f.fr_uniq_id ++ " " ++ f.date

/-- The message of the column failure on an empty fix frame. -/
def keyErrMsg (f : Flight) : String :=
  "KeyError: " ++ f.fr_manuf_code ++ f.fr_uniq_id ++ " " ++ f.date

/-- The loop body of `flights_to_dataframes` (src/pdflight.py lines
25-108) for one flight, with its raised exceptions as errors, in source
order: the validity check (line 26), the duplicate-timestamp check on the
fix index (line 63), then the resampling stage, which in the source dies
with a `KeyError` on a flight with an empty fix frame (its frame has no
columns to interpolate). -/
def processFlight (f : Flight) : Except String PerFlight :=
  if f.valid = false then .error (invalidMsg f)
  else if ¬ (f.fixes.map (fun x => x.rawtime)).Nodup then .error (dupMsg f)
  else if f.fixes.isEmpty then .error (keyErrMsg f)
  else .ok (metadataRow f, fixRowsTagged f, thermalRowsTagged f)

/-- The three concatenated corpora. -/
abbrev Corpora :=
  List MetadataRow × List (FlightKey × ℤ × FixRow) × List (FlightKey × ℚ × ℚ)

/-- `pdflight.flights_to_dataframes` (src/pdflight.py): process each
flight in order, raising out of the loop on the first failure, then
concatenate the per-flight tables in input order (lines 112-117).  When
no flight was processed the per-flight lists are empty and
`pd.concat(metadata_dfs)` at line 113 raises
`ValueError: No objects to concatenate`. -/
def flights_to_dataframes (flights : List Flight) : Except String Corpora :=
  (flights.mapM processFlight).bind
    (fun results =>
      if results.isEmpty then .error "ValueError: No objects to concatenate"
      else
        .ok (results.map (fun r => r.1),
          (results.map (fun r => r.2.1)).flatten,
          (results.map (fun r => r.2.2)).flatten))

/-- The driver of src/foo.py line 17: lenient aggregation, feeding
`flights_to_dataframes` only the flights whose `valid` flag is set. -/
def driverDataframes (flights : List Flight) : Except String Corpora :=
  flights_to_dataframes (flights.filter (fun f => f.valid))

/-- Strict lexicographic order on character lists by code point. -/
def charsLtb : List Char → List Char → Bool
  | [], [] => false
  | [], _ :: _ => true
  | _ :: _, [] => false
  | a :: as, b :: bs =>
    if a.toNat < b.toNat then true
    else if b.toNat < a.toNat then false
    else charsLtb as bs

/-- Strict lexicographic order on strings by code point. -/
def strLtb (a b : String) : Bool := charsLtb a.data b.data

/-- Strict lexicographic order on flight keys. -/
def keyLt (a b : FlightKey) : Prop :=
  strLtb a.1 b.1 = true ∨
    (a.1 = b.1 ∧ (strLtb a.2.1 b.2.1 = true ∨
      (a.2.1 = b.2.1 ∧ strLtb a.2.2 b.2.2 = true)))

/-- Strict (flight key, timestamp) order on fix-corpus rows. -/
def fixRowLt (a b : FlightKey × ℤ × FixRow) : Prop :=
  keyLt a.1 b.1 ∨ (a.1 = b.1 ∧ a.2.1 < b.2.1)

/-- Strict (flight key, timestamp) order on thermal-corpus rows. -/
def thermalRowLt (a b : FlightKey × ℚ × ℚ) : Prop :=
  keyLt a.1 b.1 ∨ (a.1 = b.1 ∧ a.2.1 < b.2.1)

instance (a b : FlightKey) : Decidable (keyLt a b) :=
  decidable_of_iff
    (strLtb a.1 b.1 = true ∨ (a.1 = b.1 ∧ (strLtb a.2.1 b.2.1 = true ∨
      (a.2.1 = b.2.1 ∧ strLtb a.2.2 b.2.2 = true)))) (by rw [keyLt])

instance (a b : FlightKey × ℤ × FixRow) : Decidable (fixRowLt a b) :=
  decidable_of_iff (keyLt a.1 b.1 ∨ (a.1 = b.1 ∧ a.2.1 < b.2.1)) (by rw [fixRowLt])

instance (a b : FlightKey × ℚ × ℚ) : Decidable (thermalRowLt a b) :=
  decidable_of_iff (keyLt a.1 b.1 ∨ (a.1 = b.1 ∧ a.2.1 < b.2.1)) (by rw [thermalRowLt])

/-- Modelled from the spec: one row of the task-window metadata corpus, as
§4.5's `inTaskWindow` reads it.  No function named `inTaskWindow` exists
in the files under src; the spec describes it as a derived predicate of
the aggregator, so the corpus row is modelled as the optional start and
finish instants recorded for a flight key. -/
structure TaskMetaRow where
  key : FlightKey
  start : Option ℚ
  finish : Option ℚ
deriving DecidableEq

/-- The metadata row of a flight key, if any. -/
def lookupTaskMeta (corpus : List TaskMetaRow) (k : FlightKey) : Option TaskMetaRow :=
  corpus.find? (fun r => decide (r.key = k))

/-- Modelled from the spec (§4.5): true iff the flight key has metadata
start and finish and `start <= timestamp < finish`; false (undefined
propagated as false) otherwise. -/
def inTaskWindow (k : FlightKey) (ts : ℚ) (corpus : List TaskMetaRow) : Bool :=
  match lookupTaskMeta corpus k with
  | some r =>
    match r.start, r.finish with
    | some s, some fin => decide (s ≤ ts ∧ ts < fin)
    | _, _ => false
  | none => false

/-- Demo annotation lines: recognised fields, a repeated POINTS field, an
unrecognised LSCR field and two non-LSCR lines. -/
def c8records : List String :=
  ["LSCR::START:10:00:00", "LSCR::POINTS:850", "LNOTE free text",
   "LSCR::CONTESTANT: J. Doe ", "LSCR::OTHER:ignored", "LSCR::POINTS:900"]

/-- Demo initial flight state for annotation parsing. -/
def c8init : LState := { fixes := [{ rawtime := 100 }] }

/-- The flight state expected after parsing `c8records`. -/
def c8out : LState :=
  { start := some "10:00:00", pilot := some "J. Doe", points := some 900,
    fixes := [{ rawtime := 100 }] }

/-- Demo fix at 100.000000 s (the collapse scenario of spec §8). -/
def demoFixA : GNSSFix := { rawtime := 100 }

/-- Demo fix at 100.000005 s, within `eps` of `demoFixA`. -/
def demoFixB : GNSSFix := { rawtime := 100 + 5 / 1000000 }

/-- Demo fix at 50 s, earlier than `demoFixA`. -/
def demoFix50 : GNSSFix := { rawtime := 50 }

/-- Demo fix at 200 s. -/
def demoFix200 : GNSSFix := { rawtime := 200 }

/-- Demo flight whose fixes are the deduplication output for the monotone
stream 100 s, 200 s. -/
def demoFlight5 : Flight :=
  { valid := true, fr_manuf_code := "XYZ", fr_uniq_id := "17", date := "2024-06-01",
    pilot := "Pilot One", points := 850, fixes := [demoFixA, demoFix200] }

/-- The fix-table row all of whose cells are holes. -/
def noneRow : FixRow :=
  { lat := none, lon := none, alt := none, gsp := none, bearing := none,
    bearing_change_rate := none, flying := none, circling := none, task := none }

/-- Demo fix at the fractional timestamp 0.5 s. -/
def demoFixHalf : GNSSFix := { rawtime := (Rat.mk' 1 2 : ℚ) }

/-- Demo fix at 3 s with latitude 30. -/
def demoFix3 : GNSSFix := { rawtime := 3, lat := 30 }

/-- Demo fix at 0 s with latitude 0, flying. -/
def demoFix0 : GNSSFix := { rawtime := 0, lat := 0, flying := true }

/-- Demo fix at 1 s with latitude 10, not flying. -/
def demoFix1 : GNSSFix := { rawtime := 1, lat := 10 }

/-- The fixes of the interpolation scenario of spec §8: seconds 0, 1, 3
with linearly varying latitude; tick 2 carries no sample. -/
def demo3Fixes : List GNSSFix := [demoFix0, demoFix1, demoFix3]

/-- Demo fix at 0 s with latitude 0 for the fractional counterexample. -/
def demoLat0 : GNSSFix := { rawtime := 0, lat := 0 }

/-- Demo fix at the fractional timestamp 1.5 s with latitude 3. -/
def demoLat15 : GNSSFix := { rawtime := (Rat.mk' 3 2 : ℚ), lat := 3 }

/-- Demo valid flight with key ("AAA", "1", "2024-06-01"). -/
def c6fA : Flight :=
  { valid := true, fr_manuf_code := "AAA", fr_uniq_id := "1", date := "2024-06-01",
    pilot := "PA", points := 100, fixes := [demoFixA] }

/-- Demo valid flight with key ("BBB", "2", "2024-06-01"). -/
def c6fB : Flight :=
  { valid := true, fr_manuf_code := "BBB", fr_uniq_id := "2", date := "2024-06-01",
    pilot := "PB", points := 200, fixes := [demoFix200] }

/-- Demo invalid flight with key ("CCC", "3", "2024-06-01"). -/
def c4bad : Flight :=
  { valid := false, fr_manuf_code := "CCC", fr_uniq_id := "3", date := "2024-06-01",
    pilot := "PC", points := 0, fixes := [demoFixA] }

/-- Demo flight carrying competition metadata. -/
def c9flightA : Flight :=
  { valid := true, fr_manuf_code := "XYZ", fr_uniq_id := "9", date := "2024-06-02",
    pilot := "P", points := 10, competition := some "Comp A", competition_class := some "Club",
    start := some "2024-06-02T10:00:00", finish := some "2024-06-02T11:30:00",
    fixes := [demoFixA] }

/-- The same flight with different competition metadata. -/
def c9flightB : Flight :=
  { valid := true, fr_manuf_code := "XYZ", fr_uniq_id := "9", date := "2024-06-02",
    pilot := "P", points := 10, competition := some "Comp B", competition_class := none,
    start := some "2024-06-02T12:00:00", finish := none,
    fixes := [demoFixA] }

/-- Demo task-window metadata row with both instants present. -/
def c10meta : TaskMetaRow :=
  { key := ("XYZ", "17", "2024-06-01"), start := some 100, finish := some 200 }

/-- Demo task-window corpus: one complete row, one row lacking a start. -/
def c10corpus : List TaskMetaRow :=
  [c10meta, { key := ("AAA", "1", "2024-06-01"), start := none, finish := some 5 }]

end IgcLab

namespace IgcLab

theorem eps_pos : 0 < eps := by norm_num [eps]

theorem eps_lt_one : eps < 1 := by norm_num [eps]

instance : IsTrans GNSSFix gapLe :=
  ⟨fun a b c hab hbc =>
    le_trans hab (le_trans (le_add_of_nonneg_right eps_pos.le) hbc)⟩

theorem foldl_dedupStep_filterMap (parsed : List (Option GNSSFix)) :
    ∀ acc : List GNSSFix,
      parsed.foldl dedupStep acc
        = (parsed.filterMap id).foldl (fun l f => dedupStep l (some f)) acc := by
  induction parsed with
  | nil => intro acc; rfl
  | cons p rest ih =>
    intro acc
    cases p with
    | none => simpa [dedupStep] using ih acc
    | some f => simpa using ih (dedupStep acc (some f))

theorem dedupStep_close {fixes : List GNSSFix} {lastFix f : GNSSFix}
    (hlast : fixes.getLast? = some lastFix) (hc : |f.rawtime - lastFix.rawtime| < eps) :
    dedupStep fixes (some f) = fixes := by
  simp [dedupStep, hlast, hc]

theorem dedupStep_far {fixes : List GNSSFix} {lastFix f : GNSSFix}
    (hlast : fixes.getLast? = some lastFix) (hc : ¬ |f.rawtime - lastFix.rawtime| < eps) :
    dedupStep fixes (some f) = fixes ++ [f] := by
  simp [dedupStep, hlast, hc]

theorem dedupStep_empty (f : GNSSFix) : dedupStep [] (some f) = [f] := rfl

theorem foldl_dedupStep_eq_append (fs : List GNSSFix) :
    ∀ (acc : List GNSSFix) (lastFix : GNSSFix),
      acc.getLast? = some lastFix →
      fs.foldl (fun l f => dedupStep l (some f)) acc = acc ++ dedupFrom lastFix fs := by
  induction fs with
  | nil => intro acc lastFix _; simp [dedupFrom]
  | cons f rest ih =>
    intro acc lastFix hlast
    rw [List.foldl_cons]
    by_cases hc : |f.rawtime - lastFix.rawtime| < eps
    · rw [dedupStep_close hlast hc, dedupFrom, if_pos hc]
      exact ih acc lastFix hlast
    · rw [dedupStep_far hlast hc, dedupFrom, if_neg hc,
        ih (acc ++ [f]) f (List.getLast?_concat acc)]
      simp

/-- The source's append-based fold and the recursive reformulation agree. -/
theorem buildFixes_eq_dedupList (parsed : List (Option GNSSFix)) :
    buildFixes parsed = dedupList (parsed.filterMap id) := by
  rw [buildFixes, foldl_dedupStep_filterMap]
  cases hfs : parsed.filterMap id with
  | nil => rfl
  | cons f rest =>
    rw [List.foldl_cons]
    have h0 : dedupStep [] (some f) = [f] := rfl
    rw [h0, foldl_dedupStep_eq_append rest [f] f rfl]
    rfl

/-- Along `dedupFrom lastFix`, every emitted fix is at least `eps` away
from its predecessor, the first one counting from `lastFix`. -/
theorem chain_dedupFrom (fs : List GNSSFix) :
    ∀ lastFix : GNSSFix,
      List.Chain (fun a b => ¬ |b.rawtime - a.rawtime| < eps) lastFix (dedupFrom lastFix fs) := by
  induction fs with
  | nil => intro lastFix; exact List.Chain.nil
  | cons f rest ih =>
    intro lastFix
    by_cases hc : |f.rawtime - lastFix.rawtime| < eps
    · simpa [dedupFrom, if_pos hc] using ih lastFix
    · simpa [dedupFrom, if_neg hc] using List.Chain.cons hc (ih f)

/-- Consecutive fixes surviving deduplication differ by at least `eps`. -/
theorem chain'_buildFixes (parsed : List (Option GNSSFix)) :
    List.Chain' (fun a b => ¬ |b.rawtime - a.rawtime| < eps) (buildFixes parsed) := by
  rw [buildFixes_eq_dedupList]
  cases parsed.filterMap id with
  | nil => exact List.chain'_nil
  | cons f rest => exact chain_dedupFrom rest f

/-- On a time-monotone fix stream, `dedupFrom` only emits fixes that keep
gaining at least `eps` over their predecessor. -/
theorem chain_gap_dedupFrom (fs : List GNSSFix) :
    ∀ lastFix : GNSSFix,
      (∀ g ∈ fs, lastFix.rawtime ≤ g.rawtime) →
      fs.Pairwise (fun a b => a.rawtime ≤ b.rawtime) →
      List.Chain gapLe lastFix (dedupFrom lastFix fs) := by
  induction fs with
  | nil => intro lastFix _ _; exact List.Chain.nil
  | cons f rest ih =>
    intro lastFix hge hpw
    rcases List.pairwise_cons.mp hpw with ⟨hf, hrest⟩
    by_cases hc : |f.rawtime - lastFix.rawtime| < eps
    · rw [dedupFrom, if_pos hc]
      exact ih lastFix (fun g hg => hge g (List.mem_cons_of_mem f hg)) hrest
    · rw [dedupFrom, if_neg hc]
      have hle : lastFix.rawtime ≤ f.rawtime := hge f (List.mem_cons_self f rest)
      have habs : |f.rawtime - lastFix.rawtime| = f.rawtime - lastFix.rawtime :=
        abs_of_nonneg (sub_nonneg.mpr hle)
      have hgap : gapLe lastFix f := by
        have := not_lt.mp hc
        rw [habs] at this
        unfold gapLe
        linarith
      exact List.Chain.cons hgap (ih f hf hrest)

/-- On a time-monotone parse stream, the deduplicated fixes are pairwise
at least `eps` apart, later fixes later in time. -/
theorem pairwise_gap_buildFixes (parsed : List (Option GNSSFix))
    (hmono : (parsed.filterMap id).Pairwise (fun a b => a.rawtime ≤ b.rawtime)) :
    (buildFixes parsed).Pairwise gapLe := by
  rw [buildFixes_eq_dedupList]
  cases hfs : parsed.filterMap id with
  | nil => exact List.Pairwise.nil
  | cons f rest =>
    rw [hfs] at hmono
    rcases List.pairwise_cons.mp hmono with ⟨hf, hrest⟩
    have hchain : List.Chain gapLe f (dedupFrom f rest) := chain_gap_dedupFrom rest f hf hrest
    have : List.Chain' gapLe (f :: dedupFrom f rest) := hchain
    exact List.chain'_iff_pairwise.mp this

theorem close_demoAB : |demoFixB.rawtime - demoFixA.rawtime| < eps := by
  rw [abs_lt]
  constructor <;> norm_num [demoFixA, demoFixB, eps]

theorem far_demo_50_100 : ¬ |demoFix50.rawtime - demoFixA.rawtime| < eps := by
  rw [not_lt]
  have h : demoFix50.rawtime - demoFixA.rawtime = -50 := by norm_num [demoFix50, demoFixA]
  rw [h, abs_of_nonpos (by norm_num)]
  norm_num [eps]

theorem far_demo_200_100 : ¬ |demoFix200.rawtime - demoFixA.rawtime| < eps := by
  rw [not_lt]
  have h : demoFix200.rawtime - demoFixA.rawtime = 100 := by norm_num [demoFix200, demoFixA]
  rw [h, abs_of_nonneg (by norm_num)]
  norm_num [eps]

theorem far_demo_100_200 : ¬ |demoFixA.rawtime - demoFix200.rawtime| < eps := by
  rw [not_lt]
  have h : demoFixA.rawtime - demoFix200.rawtime = -100 := by norm_num [demoFix200, demoFixA]
  rw [h, abs_of_nonpos (by norm_num)]
  norm_num [eps]

theorem getLast?_demoA : ([demoFixA] : List GNSSFix).getLast? = some demoFixA := rfl

/-- Deduplicating the monotone demo stream 100 s, 200 s keeps both fixes. -/
theorem buildFixes_demo_A200 :
    buildFixes [some demoFixA, some demoFix200] = [demoFixA, demoFix200] := by
  rw [buildFixes, List.foldl_cons, List.foldl_cons, List.foldl_nil, dedupStep_empty,
    dedupStep_far getLast?_demoA far_demo_200_100]
  rfl

/-- C1: for every ordered stream of raw B-record parse results, the
deduplicated fix sequence has no two consecutive fixes whose timestamps
differ in absolute value by less than 1e-5 s, and whenever a newly parsed
fix is within 1e-5 s of the last accepted fix, the new fix is discarded
and the earlier one kept. -/
theorem c1_dedup_eps_gap (parsed : List (Option GNSSFix)) :
    List.Chain' (fun a b => ¬ |b.rawtime - a.rawtime| < eps) (buildFixes parsed) ∧
    ∀ (fixes : List GNSSFix) (lastFix f : GNSSFix),
      fixes.getLast? = some lastFix → |f.rawtime - lastFix.rawtime| < eps →
      dedupStep fixes (some f) = fixes :=
  ⟨chain'_buildFixes parsed, fun _ _ _ h hc => dedupStep_close h hc⟩

/-- Witness for C1 at the spec scenario: raw fixes at 100.000000 s and
100.000005 s collapse to the first one. -/
theorem c1_witness :
    buildFixes [some demoFixA, some demoFixB] = [demoFixA] ∧
    List.Chain' (fun a b => ¬ |b.rawtime - a.rawtime| < eps)
      (buildFixes [some demoFixA, some demoFixB]) ∧
    dedupStep [demoFixA] (some demoFixB) = [demoFixA] := by
  refine ⟨?_, (c1_dedup_eps_gap [some demoFixA, some demoFixB]).1,
    (c1_dedup_eps_gap [some demoFixA, some demoFixB]).2 [demoFixA] demoFixA demoFixB
      getLast?_demoA close_demoAB⟩
  rw [buildFixes, List.foldl_cons, List.foldl_cons, List.foldl_nil, dedupStep_empty,
    dedupStep_close getLast?_demoA close_demoAB]

/-- C7 (amended): when the raw fix stream is monotone in time, the
deduplicated fix sequence is strictly ordered by timestamp and no two of
its fixes are within 1e-5 s of each other.  (As stated over all streams
the claim fails: deduplication never reorders, see the counterexample.) -/
theorem c7_sorted_of_monotone (parsed : List (Option GNSSFix))
    (hmono : (parsed.filterMap id).Pairwise (fun a b => a.rawtime ≤ b.rawtime)) :
    (buildFixes parsed).Pairwise
      (fun a b => a.rawtime < b.rawtime ∧ eps ≤ |b.rawtime - a.rawtime|) := by
  refine (pairwise_gap_buildFixes parsed hmono).imp ?_
  intro a b hab
  unfold gapLe at hab
  have hlt : a.rawtime < b.rawtime := by linarith [eps_pos]
  refine ⟨hlt, ?_⟩
  rw [abs_of_nonneg (by linarith : (0:ℚ) ≤ b.rawtime - a.rawtime)]
  linarith

/-- Witness for C7 on the monotone demo stream 100 s, 200 s. -/
theorem c7_witness :
    (buildFixes [some demoFixA, some demoFix200]).Pairwise
      (fun a b => a.rawtime < b.rawtime ∧ eps ≤ |b.rawtime - a.rawtime|) :=
  c7_sorted_of_monotone [some demoFixA, some demoFix200] (by decide)

/-- Counterexample for C7 as stated: deduplication does not sort, so the
out-of-order raw stream 100 s, 50 s survives out of order. -/
theorem c7_counterexample :
    ¬ (buildFixes [some demoFixA, some demoFix50]).Pairwise
      (fun a b => a.rawtime < b.rawtime) := by
  have h : buildFixes [some demoFixA, some demoFix50] = [demoFixA, demoFix50] := by
    rw [buildFixes, List.foldl_cons, List.foldl_cons, List.foldl_nil, dedupStep_empty,
      dedupStep_far getLast?_demoA far_demo_50_100]
    rfl
  rw [h]
  decide

/-- C5 (amended): for a fix sequence produced by deduplication from a
time-monotone raw stream, no two fixes share a timestamp, so the
normalizer's duplicate-timestamp re-check cannot fire: `processFlight`
returns rows for any valid flight carrying such a nonempty sequence.
(Over arbitrary streams the re-check is reachable, see the
counterexample.) -/
theorem c5_nodup_of_monotone (parsed : List (Option GNSSFix))
    (hmono : (parsed.filterMap id).Pairwise (fun a b => a.rawtime ≤ b.rawtime)) :
    ((buildFixes parsed).map (fun f => f.rawtime)).Nodup ∧
    ∀ f : Flight, f.valid = true → f.fixes = buildFixes parsed → f.fixes ≠ [] →
      processFlight f = .ok (metadataRow f, fixRowsTagged f, thermalRowsTagged f) := by
  have hne : List.Pairwise (fun a b : GNSSFix => a.rawtime ≠ b.rawtime) (buildFixes parsed) :=
    (pairwise_gap_buildFixes parsed hmono).imp
      (fun hab => ne_of_lt (by unfold gapLe at hab; linarith [eps_pos]))
  have hnd : ((buildFixes parsed).map (fun f => f.rawtime)).Nodup :=
    List.pairwise_map.mpr hne
  refine ⟨hnd, ?_⟩
  intro f hv hf hfe
  have hnd' : (f.fixes.map (fun x => x.rawtime)).Nodup := by rw [hf]; exact hnd
  have hempty : f.fixes.isEmpty = false := by
    cases hfx : f.fixes with
    | nil => exact absurd hfx hfe
    | cons a l => rfl
  rw [processFlight, if_neg (by simp [hv]), if_neg (not_not.mpr hnd'),
    if_neg (by simp [hempty])]

/-- Witness for C5 on the monotone demo stream 100 s, 200 s and the demo
flight carrying its deduplication output. -/
theorem c5_witness :
    ((buildFixes [some demoFixA, some demoFix200]).map (fun f => f.rawtime)).Nodup ∧
    processFlight demoFlight5
      = .ok (metadataRow demoFlight5, fixRowsTagged demoFlight5, thermalRowsTagged demoFlight5) :=
  ⟨(c5_nodup_of_monotone [some demoFixA, some demoFix200] (by decide)).1,
    (c5_nodup_of_monotone [some demoFixA, some demoFix200] (by decide)).2 demoFlight5 rfl
      buildFixes_demo_A200.symm (by decide)⟩

theorem strStarts_trans {p q r : String} (hpq : p.data.isPrefixOf q.data = true)
    (h : strStarts q r = true) : strStarts p r = true := by
  rw [strStarts, List.isPrefixOf_iff_prefix] at h ⊢
  exact List.IsPrefix.trans (List.isPrefixOf_iff_prefix.mp hpq) h

theorem strStarts_excl (p q : String) {r : String}
    (hpq : p.data.isPrefixOf q.data = false) (hqp : q.data.isPrefixOf p.data = false)
    (h : strStarts p r = true) : strStarts q r = false := by
  cases hs : strStarts q r with
  | false => rfl
  | true =>
    rw [strStarts, List.isPrefixOf_iff_prefix] at h hs
    rcases List.prefix_or_prefix_of_prefix h hs with hc | hc
    · rw [← List.isPrefixOf_iff_prefix] at hc
      rw [hpq] at hc
      exact Bool.noConfusion hc
    · rw [← List.isPrefixOf_iff_prefix] at hc
      rw [hqp] at hc
      exact Bool.noConfusion hc

theorem gate_false (tag : String) {r : String}
    (hpre : ("LSCR::".data.isPrefixOf tag.data) = true)
    (hg : ¬ strStarts "LSCR::" r = true) : strStarts tag r = false := by
  cases hs : strStarts tag r with
  | false => rfl
  | true => exact absurd (strStarts_trans hpre hs) hg

/-- The effect of one annotation line on the flight state: each recognised
field takes the line's trimmed value, everything else is untouched. -/
theorem parse_l_record_ok {st st' : LState} {r : String}
    (h : parse_l_record st r = .ok st') :
    st'.fixes = st.fixes ∧
    st'.start = (if strStarts "LSCR::START:" r = true then some (lscrValue r) else st.start) ∧
    st'.finish = (if strStarts "LSCR::FINISH:" r = true then some (lscrValue r) else st.finish) ∧
    st'.points = (if strStarts "LSCR::POINTS:" r = true then parseInt (lscrValue r) else st.points) ∧
    st'.pilot = (if strStarts "LSCR::CONTESTANT:" r = true then some (lscrValue r) else st.pilot) ∧
    st'.competition =
      (if strStarts "LSCR::COMPETITION:" r = true then some (lscrValue r) else st.competition) ∧
    st'.competition_class =
      (if strStarts "LSCR::CLASS:" r = true then some (lscrValue r) else st.competition_class) := by
  rw [parse_l_record] at h
  by_cases hg : strStarts "LSCR::" r = true
  case neg =>
    rw [if_neg hg] at h
    have e1 := gate_false "LSCR::START:" (by decide) hg
    have e2 := gate_false "LSCR::FINISH:" (by decide) hg
    have e3 := gate_false "LSCR::POINTS:" (by decide) hg
    have e4 := gate_false "LSCR::CONTESTANT:" (by decide) hg
    have e5 := gate_false "LSCR::COMPETITION:" (by decide) hg
    have e6 := gate_false "LSCR::CLASS:" (by decide) hg
    have hst : st = st' := by simpa using h
    subst hst
    exact ⟨rfl, by simp [e1], by simp [e2], by simp [e3], by simp [e4], by simp [e5],
      by simp [e6]⟩
  case pos =>
    rw [if_pos hg, parse_lscr_record] at h
    by_cases h1 : strStarts "LSCR::START:" r = true
    · rw [if_pos h1] at h
      have e2 := strStarts_excl "LSCR::START:" "LSCR::FINISH:" (by decide) (by decide) h1
      have e3 := strStarts_excl "LSCR::START:" "LSCR::POINTS:" (by decide) (by decide) h1
      have e4 := strStarts_excl "LSCR::START:" "LSCR::CONTESTANT:" (by decide) (by decide) h1
      have e5 := strStarts_excl "LSCR::START:" "LSCR::COMPETITION:" (by decide) (by decide) h1
      have e6 := strStarts_excl "LSCR::START:" "LSCR::CLASS:" (by decide) (by decide) h1
      have hst : { st with start := some (lscrValue r) } = st' := by simpa using h
      subst hst
      exact ⟨rfl, by simp [h1], by simp [e2], by simp [e3], by simp [e4], by simp [e5],
        by simp [e6]⟩
    rw [if_neg h1] at h
    by_cases h2 : strStarts "LSCR::FINISH:" r = true
    · rw [if_pos h2] at h
      have e3 := strStarts_excl "LSCR::FINISH:" "LSCR::POINTS:" (by decide) (by decide) h2
      have e4 := strStarts_excl "LSCR::FINISH:" "LSCR::CONTESTANT:" (by decide) (by decide) h2
      have e5 := strStarts_excl "LSCR::FINISH:" "LSCR::COMPETITION:" (by decide) (by decide) h2
      have e6 := strStarts_excl "LSCR::FINISH:" "LSCR::CLASS:" (by decide) (by decide) h2
      have e1 := Bool.eq_false_iff.mpr h1
      have hst : { st with finish := some (lscrValue r) } = st' := by simpa using h
      subst hst
      exact ⟨rfl, by simp [e1], by simp [h2], by simp [e3], by simp [e4], by simp [e5],
        by simp [e6]⟩
    rw [if_neg h2] at h
    by_cases h3 : strStarts "LSCR::POINTS:" r = true
    · rw [if_pos h3] at h
      have e4 := strStarts_excl "LSCR::POINTS:" "LSCR::CONTESTANT:" (by decide) (by decide) h3
      have e5 := strStarts_excl "LSCR::POINTS:" "LSCR::COMPETITION:" (by decide) (by decide) h3
      have e6 := strStarts_excl "LSCR::POINTS:" "LSCR::CLASS:" (by decide) (by decide) h3
      have e1 := Bool.eq_false_iff.mpr h1
      have e2 := Bool.eq_false_iff.mpr h2
      cases hp : parseInt (lscrValue r) with
      | none => rw [hp] at h; exact Except.noConfusion h
      | some n =>
        rw [hp] at h
        have hst : { st with points := some n } = st' := by simpa using h
        subst hst
        exact ⟨rfl, by simp [e1], by simp [e2], by simp [h3, hp], by simp [e4], by simp [e5],
          by simp [e6]⟩
    rw [if_neg h3] at h
    by_cases h4 : strStarts "LSCR::CONTESTANT:" r = true
    · rw [if_pos h4] at h
      have e5 := strStarts_excl "LSCR::CONTESTANT:" "LSCR::COMPETITION:" (by decide) (by decide) h4
      have e6 := strStarts_excl "LSCR::CONTESTANT:" "LSCR::CLASS:" (by decide) (by decide) h4
      have e1 := Bool.eq_false_iff.mpr h1
      have e2 := Bool.eq_false_iff.mpr h2
      have e3 := Bool.eq_false_iff.mpr h3
      have hst : { st with pilot := some (lscrValue r) } = st' := by simpa using h
      subst hst
      exact ⟨rfl, by simp [e1], by simp [e2], by simp [e3], by simp [h4], by simp [e5],
        by simp [e6]⟩
    rw [if_neg h4] at h
    by_cases h5 : strStarts "LSCR::COMPETITION:" r = true
    · rw [if_pos h5] at h
      have e6 := strStarts_excl "LSCR::COMPETITION:" "LSCR::CLASS:" (by decide) (by decide) h5
      have e1 := Bool.eq_false_iff.mpr h1
      have e2 := Bool.eq_false_iff.mpr h2
      have e3 := Bool.eq_false_iff.mpr h3
      have e4 := Bool.eq_false_iff.mpr h4
      have hst : { st with competition := some (lscrValue r) } = st' := by simpa using h
      subst hst
      exact ⟨rfl, by simp [e1], by simp [e2], by simp [e3], by simp [e4], by simp [h5],
        by simp [e6]⟩
    rw [if_neg h5] at h
    by_cases h6 : strStarts "LSCR::CLASS:" r = true
    · rw [if_pos h6] at h
      have e1 := Bool.eq_false_iff.mpr h1
      have e2 := Bool.eq_false_iff.mpr h2
      have e3 := Bool.eq_false_iff.mpr h3
      have e4 := Bool.eq_false_iff.mpr h4
      have e5 := Bool.eq_false_iff.mpr h5
      have hst : { st with competition_class := some (lscrValue r) } = st' := by simpa using h
      subst hst
      exact ⟨rfl, by simp [e1], by simp [e2], by simp [e3], by simp [e4], by simp [e5],
        by simp [h6]⟩
    rw [if_neg h6] at h
    have e1 := Bool.eq_false_iff.mpr h1
    have e2 := Bool.eq_false_iff.mpr h2
    have e3 := Bool.eq_false_iff.mpr h3
    have e4 := Bool.eq_false_iff.mpr h4
    have e5 := Bool.eq_false_iff.mpr h5
    have e6 := Bool.eq_false_iff.mpr h6
    have hst : st = st' := by simpa using h
    subst hst
    exact ⟨rfl, by simp [e1], by simp [e2], by simp [e3], by simp [e4], by simp [e5],
      by simp [e6]⟩

theorem lastTagged_append_single (tag : String) (l : List String) (r : String) :
    lastTagged tag (l ++ [r])
      = if strStarts tag r = true then some r else lastTagged tag l := by
  rw [lastTagged, List.filter_append]
  by_cases hs : strStarts tag r = true
  · rw [if_pos hs]
    have hone : List.filter (fun x => strStarts tag x) [r] = [r] := by simp [hs]
    rw [hone, List.getLast?_concat]
  · rw [if_neg hs]
    have hnone : List.filter (fun x => strStarts tag x) [r] = [] := by simp [hs]
    rw [hnone, List.append_nil, lastTagged]

/-- C8: annotation parsing is a left-to-right fold with last-wins
semantics: on success, each recognised field (START, FINISH, POINTS,
CONTESTANT, COMPETITION, CLASS) holds the trimmed value of the last line
naming that field (POINTS parsed as an integer), fields named by no line
keep their prior value, and no other flight state changes. -/
theorem c8_lscr_fold (records : List String) (st st' : LState)
    (h : parse_l_records st records = .ok st') :
    st'.fixes = st.fixes ∧
    st'.start = ((lastTagged "LSCR::START:" records).map lscrValue).or st.start ∧
    st'.finish = ((lastTagged "LSCR::FINISH:" records).map lscrValue).or st.finish ∧
    st'.points = (match lastTagged "LSCR::POINTS:" records with
      | some r => parseInt (lscrValue r)
      | none => st.points) ∧
    st'.pilot = ((lastTagged "LSCR::CONTESTANT:" records).map lscrValue).or st.pilot ∧
    st'.competition =
      ((lastTagged "LSCR::COMPETITION:" records).map lscrValue).or st.competition ∧
    st'.competition_class =
      ((lastTagged "LSCR::CLASS:" records).map lscrValue).or st.competition_class := by
  induction records using List.reverseRecOn generalizing st' with
  | nil =>
    rw [parse_l_records] at h
    have hst : st = st' := Except.ok.inj h
    subst hst
    exact ⟨rfl, by simp [lastTagged], by simp [lastTagged], by simp [lastTagged],
      by simp [lastTagged], by simp [lastTagged], by simp [lastTagged]⟩
  | append_singleton l r ih =>
    rw [parse_l_records, List.foldlM_append] at h
    cases hmid : List.foldlM parse_l_record st l with
    | error e => rw [hmid] at h; exact Except.noConfusion (by simpa using h)
    | ok mid =>
      rw [hmid] at h
      have h' : parse_l_record mid r = .ok st' := by
        have hb : (Except.ok mid >>= fun mid => [r].foldlM parse_l_record mid) =
            [r].foldlM parse_l_record mid := rfl
        rw [hb] at h
        simpa using h
      obtain ⟨hf, h1, h2, h3, h4, h5, h6⟩ := parse_l_record_ok h'
      obtain ⟨gf, g1, g2, g3, g4, g5, g6⟩ := ih mid (by rw [parse_l_records]; exact hmid)
      refine ⟨by rw [hf, gf], ?_, ?_, ?_, ?_, ?_, ?_⟩ <;> rw [lastTagged_append_single]
      · by_cases hs : strStarts "LSCR::START:" r = true <;> simp [hs, h1, g1]
      · by_cases hs : strStarts "LSCR::FINISH:" r = true <;> simp [hs, h2, g2]
      · by_cases hs : strStarts "LSCR::POINTS:" r = true <;> simp [hs, h3, g3]
      · by_cases hs : strStarts "LSCR::CONTESTANT:" r = true <;> simp [hs, h4, g4]
      · by_cases hs : strStarts "LSCR::COMPETITION:" r = true <;> simp [hs, h5, g5]
      · by_cases hs : strStarts "LSCR::CLASS:" r = true <;> simp [hs, h6, g6]

theorem rat_intCast_of_den_one {q : ℚ} (h : q.den = 1) : (q.num : ℚ) = q := by
  conv_rhs => rw [← Rat.num_div_den q]
  rw [h]
  simp

theorem anchorOf_int {f : GNSSFix} {a : ℤ} (hf : f.rawtime = (a : ℚ)) :
    anchorOf f = some (a, f) := by
  rw [anchorOf, hf]
  simp [Rat.den_intCast, Rat.num_intCast]

theorem mem_anchors_rawtime {fixes : List GNSSFix} {z : ℤ} {g : GNSSFix}
    (h : (z, g) ∈ anchors fixes) : g ∈ fixes ∧ g.rawtime = (z : ℚ) := by
  rw [anchors] at h
  rcases List.mem_filterMap.mp h with ⟨f, hfm, hf⟩
  rw [anchorOf] at hf
  by_cases hd : f.rawtime.den = 1
  · rw [if_pos hd] at hf
    simp only [Option.some.injEq, Prod.mk.injEq] at hf
    obtain ⟨hz, hg⟩ := hf
    subst hg
    exact ⟨hfm, by rw [← hz]; exact (rat_intCast_of_den_one hd).symm⟩
  · rw [if_neg hd] at hf
    exact absurd hf (by simp)

theorem fixTableRows_map_fst (fixes : List GNSSFix) :
    (fixTableRows fixes).map Prod.fst = fixTicks fixes := by
  rw [fixTableRows, List.map_map]
  exact List.map_id _

/-- C2 (amended): for a flight whose fixes start at `f0` and end at `f1`
with `f0` no later, the normalized fix table has exactly
`floor(lastTimestamp) - floor(firstTimestamp) + 1` rows, its ticks step
by exactly one second, and a tick appears iff it lies between the two
floors — no missing ticks.  (The claim's `ceil(firstTimestamp)` is wrong
when the first timestamp is fractional, see the counterexample; for
whole-second first timestamps floor and ceil agree.) -/
theorem c2_fix_table_ticks (fixes : List GNSSFix) (f0 f1 : GNSSFix)
    (h0 : fixes.head? = some f0) (h1 : fixes.getLast? = some f1)
    (hle : f0.rawtime ≤ f1.rawtime) :
    (fixTableRows fixes).length = (⌊f1.rawtime⌋ - ⌊f0.rawtime⌋ + 1).toNat ∧
    List.Chain' (fun x y => y = x + 1) ((fixTableRows fixes).map Prod.fst) ∧
    ∀ t : ℤ, t ∈ (fixTableRows fixes).map Prod.fst ↔ ⌊f0.rawtime⌋ ≤ t ∧ t ≤ ⌊f1.rawtime⌋ := by
  have hfl : ⌊f0.rawtime⌋ ≤ ⌊f1.rawtime⌋ := Int.floor_le_floor hle
  have hticks : fixTicks fixes
      = (List.range ((⌊f1.rawtime⌋ - ⌊f0.rawtime⌋ + 1).toNat)).map
          (fun i : ℕ => ⌊f0.rawtime⌋ + (i : ℤ)) := by
    unfold fixTicks
    rw [h0, h1]
  refine ⟨?_, ?_, ?_⟩
  · rw [fixTableRows, List.length_map, hticks, List.length_map, List.length_range]
  · rw [fixTableRows_map_fst, hticks]
    refine (List.chain'_map _).mpr ?_
    cases hn : (⌊f1.rawtime⌋ - ⌊f0.rawtime⌋ + 1).toNat with
    | zero => exact List.chain'_nil
    | succ m =>
      refine (List.chain'_range_succ _ m).mpr ?_
      intro i _
      omega
  · intro t
    rw [fixTableRows_map_fst, hticks]
    simp only [List.mem_map, List.mem_range]
    constructor
    · rintro ⟨i, hi, rfl⟩
      omega
    · rintro ⟨hl, hr⟩
      exact ⟨(t - ⌊f0.rawtime⌋).toNat, by omega, by omega⟩

/-- Witness for C2 on the two-fix demo flight spanning 100 s to 200 s. -/
theorem c2_witness :
    (fixTableRows [demoFixA, demoFix200]).length
        = (⌊demoFix200.rawtime⌋ - ⌊demoFixA.rawtime⌋ + 1).toNat ∧
    List.Chain' (fun x y => y = x + 1) ((fixTableRows [demoFixA, demoFix200]).map Prod.fst) ∧
    ∀ t : ℤ, t ∈ (fixTableRows [demoFixA, demoFix200]).map Prod.fst ↔
      ⌊demoFixA.rawtime⌋ ≤ t ∧ t ≤ ⌊demoFix200.rawtime⌋ :=
  c2_fix_table_ticks [demoFixA, demoFix200] demoFixA demoFix200 rfl rfl (by decide)

/-- Counterexample for C2 as stated: a flight whose fixes sit at 0.5 s and
3 s gets ticks 0,1,2,3 — four rows — while the claim's formula
`floor(last) - ceil(first) + 1` gives three. -/
theorem c2_counterexample :
    (fixTableRows [demoFixHalf, demoFix3]).length
      ≠ (⌊demoFix3.rawtime⌋ - ⌈demoFixHalf.rawtime⌉ + 1).toNat := by
  decide

theorem filter_anchors_le_nil {l : List GNSSFix} {k : ℤ}
    (h : ∀ g ∈ l, (k : ℚ) < g.rawtime) :
    List.filter (fun p : ℤ × GNSSFix => decide (p.1 ≤ k)) (List.filterMap anchorOf l) = [] := by
  rw [List.filter_eq_nil_iff]
  rintro ⟨z, g⟩ hm
  obtain ⟨hgl, hgz⟩ := mem_anchors_rawtime hm
  have hkz : (k : ℚ) < (z : ℚ) := by rw [← hgz]; exact h g hgl
  have : k < z := by exact_mod_cast hkz
  simp only [decide_eq_true_eq]
  omega

theorem filter_anchors_ge_nil {l : List GNSSFix} {k : ℤ}
    (h : ∀ g ∈ l, g.rawtime < (k : ℚ)) :
    List.filter (fun p : ℤ × GNSSFix => decide (k ≤ p.1)) (List.filterMap anchorOf l) = [] := by
  rw [List.filter_eq_nil_iff]
  rintro ⟨z, g⟩ hm
  obtain ⟨hgl, hgz⟩ := mem_anchors_rawtime hm
  have hzk : (z : ℚ) < (k : ℚ) := by rw [← hgz]; exact h g hgl
  have : z < k := by exact_mod_cast hzk
  simp only [decide_eq_true_eq]
  omega

theorem prevAnchor_eq_of_between {l1 l2 : List GNSSFix} {fa fb : GNSSFix} {a b k : ℤ}
    (hsort : (l1 ++ fa :: fb :: l2).Pairwise (fun u v => u.rawtime < v.rawtime))
    (ha : fa.rawtime = (a : ℚ)) (hb : fb.rawtime = (b : ℚ))
    (hak : a ≤ k) (hkb : k < b) :
    prevAnchor (l1 ++ fa :: fb :: l2) k = some (a, fa) := by
  obtain ⟨-, hrt, -⟩ := List.pairwise_append.mp hsort
  obtain ⟨-, hrt2⟩ := List.pairwise_cons.mp hrt
  obtain ⟨hfb, -⟩ := List.pairwise_cons.mp hrt2
  have h2 : List.filter (fun p : ℤ × GNSSFix => decide (p.1 ≤ k))
      ((b, fb) :: List.filterMap anchorOf l2)
      = List.filter (fun p : ℤ × GNSSFix => decide (p.1 ≤ k))
          (List.filterMap anchorOf l2) :=
    List.filter_cons_of_neg (by simp only [decide_eq_true_eq]; omega)
  have h3 : List.filter (fun p : ℤ × GNSSFix => decide (p.1 ≤ k))
      (List.filterMap anchorOf l2) = [] := by
    refine filter_anchors_le_nil ?_
    intro g hg
    have hbz : (b : ℚ) < g.rawtime := by rw [← hb]; exact hfb g hg
    have hkb2 : (k : ℚ) < (b : ℚ) := by exact_mod_cast hkb
    linarith
  have h4 : List.filter (fun p : ℤ × GNSSFix => decide (p.1 ≤ k))
      ((a, fa) :: (b, fb) :: List.filterMap anchorOf l2)
      = (a, fa) :: List.filter (fun p : ℤ × GNSSFix => decide (p.1 ≤ k))
          ((b, fb) :: List.filterMap anchorOf l2) :=
    List.filter_cons_of_pos (by simp only [decide_eq_true_eq]; exact hak)
  rw [prevAnchor, anchors, List.filterMap_append]
  simp only [List.filterMap_cons, anchorOf_int ha, anchorOf_int hb]
  rw [List.filter_append, h4, h2, h3]
  exact List.getLast?_concat _

theorem nextAnchor_eq_of_between {l1 l2 : List GNSSFix} {fa fb : GNSSFix} {a b k : ℤ}
    (hsort : (l1 ++ fa :: fb :: l2).Pairwise (fun u v => u.rawtime < v.rawtime))
    (ha : fa.rawtime = (a : ℚ)) (hb : fb.rawtime = (b : ℚ))
    (hak : a < k) (hkb : k ≤ b) :
    nextAnchor (l1 ++ fa :: fb :: l2) k = some (b, fb) := by
  obtain ⟨-, -, hcross⟩ := List.pairwise_append.mp hsort
  have h1 : List.filter (fun p : ℤ × GNSSFix => decide (k ≤ p.1))
      (List.filterMap anchorOf l1) = [] := by
    refine filter_anchors_ge_nil ?_
    intro g hg
    have hga : g.rawtime < (a : ℚ) := by
      rw [← ha]; exact hcross g hg fa (List.mem_cons_self fa (fb :: l2))
    have hak' : (a : ℚ) < (k : ℚ) := by exact_mod_cast hak
    linarith
  have h2 : List.filter (fun p : ℤ × GNSSFix => decide (k ≤ p.1))
      ((a, fa) :: (b, fb) :: List.filterMap anchorOf l2)
      = List.filter (fun p : ℤ × GNSSFix => decide (k ≤ p.1))
          ((b, fb) :: List.filterMap anchorOf l2) :=
    List.filter_cons_of_neg (by simp only [decide_eq_true_eq]; omega)
  have h3 : List.filter (fun p : ℤ × GNSSFix => decide (k ≤ p.1))
      ((b, fb) :: List.filterMap anchorOf l2)
      = (b, fb) :: List.filter (fun p : ℤ × GNSSFix => decide (k ≤ p.1))
          (List.filterMap anchorOf l2) :=
    List.filter_cons_of_pos (by simp only [decide_eq_true_eq]; exact hkb)
  rw [nextAnchor, anchors, List.filterMap_append]
  simp only [List.filterMap_cons, anchorOf_int ha, anchorOf_int hb]
  rw [List.filter_append, h1, List.nil_append, h2, h3]
  rfl

theorem prevAnchor_eq_of_last {l1 l2 : List GNSSFix} {fa : GNSSFix} {a k : ℤ}
    (ha : fa.rawtime = (a : ℚ)) (hak : a ≤ k)
    (hafter : ∀ g ∈ l2, (k : ℚ) < g.rawtime) :
    prevAnchor (l1 ++ fa :: l2) k = some (a, fa) := by
  have h4 : List.filter (fun p : ℤ × GNSSFix => decide (p.1 ≤ k))
      ((a, fa) :: List.filterMap anchorOf l2)
      = (a, fa) :: List.filter (fun p : ℤ × GNSSFix => decide (p.1 ≤ k))
          (List.filterMap anchorOf l2) :=
    List.filter_cons_of_pos (by simp only [decide_eq_true_eq]; exact hak)
  rw [prevAnchor, anchors, List.filterMap_append]
  simp only [List.filterMap_cons, anchorOf_int ha]
  rw [List.filter_append, h4, filter_anchors_le_nil hafter]
  exact List.getLast?_concat _

theorem prevAnchor_none_of_before {fixes : List GNSSFix} {k : ℤ}
    (hbefore : ∀ g ∈ fixes, (k : ℚ) < g.rawtime) :
    prevAnchor fixes k = none := by
  rw [prevAnchor, anchors, filter_anchors_le_nil hbefore]
  rfl

theorem interpCol_eq_of_anchors {fixes : List GNSSFix} {proj : GNSSFix → ℚ} {k : ℤ}
    {pa pb : ℤ × GNSSFix}
    (hp : prevAnchor fixes k = some pa) (hn : nextAnchor fixes k = some pb) :
    interpCol fixes proj k
      = if pb.1 = pa.1 then some (proj pa.2)
        else some (proj pa.2 +
          (((k : ℚ) - (pa.1 : ℚ)) / ((pb.1 : ℚ) - (pa.1 : ℚ))) * (proj pb.2 - proj pa.2)) := by
  rw [interpCol, hp, hn]

theorem interpCol_none_of_prev_none {fixes : List GNSSFix} {proj : GNSSFix → ℚ} {k : ℤ}
    (hp : prevAnchor fixes k = none) : interpCol fixes proj k = none := by
  cases hn : nextAnchor fixes k with
  | none => rw [interpCol, hp, hn]
  | some pb => rw [interpCol, hp, hn]

/-- C3 (amended): in the normalized fix table, known samples are the fixes
sitting exactly on whole-second ticks (`asfreq` drops every other
sample).  At a tick strictly between two successive fixes that are both
known, every continuous column is the time-weighted linear interpolation
of those two fixes and every boolean column inherits the earlier fix; at
a tick at or after a known fix that no later fix precedes, boolean
columns inherit that fix; at a tick before every fix, every column is
undefined.  (As stated — interpolating between arbitrary samples — the
claim fails for samples off the tick grid, see the counterexample.) -/
theorem c3_resample_semantics (fixes : List GNSSFix) (k : ℤ)
    (hsort : fixes.Pairwise (fun u v => u.rawtime < v.rawtime)) :
    (∀ (l1 l2 : List GNSSFix) (fa fb : GNSSFix) (a b : ℤ),
      fixes = l1 ++ fa :: fb :: l2 → fa.rawtime = (a : ℚ) → fb.rawtime = (b : ℚ) →
      a < k → k < b →
      rowAt fixes k =
        { lat := some (fa.lat + (((k : ℚ) - (a : ℚ)) / ((b : ℚ) - (a : ℚ))) * (fb.lat - fa.lat)),
          lon := some (fa.lon + (((k : ℚ) - (a : ℚ)) / ((b : ℚ) - (a : ℚ))) * (fb.lon - fa.lon)),
          alt := some (fa.alt + (((k : ℚ) - (a : ℚ)) / ((b : ℚ) - (a : ℚ))) * (fb.alt - fa.alt)),
          gsp := some (fa.gsp + (((k : ℚ) - (a : ℚ)) / ((b : ℚ) - (a : ℚ))) * (fb.gsp - fa.gsp)),
          bearing := some (fa.bearing +
            (((k : ℚ) - (a : ℚ)) / ((b : ℚ) - (a : ℚ))) * (fb.bearing - fa.bearing)),
          bearing_change_rate := some (fa.bearing_change_rate +
            (((k : ℚ) - (a : ℚ)) / ((b : ℚ) - (a : ℚ)))
              * (fb.bearing_change_rate - fa.bearing_change_rate)),
          flying := some fa.flying, circling := some fa.circling, task := some fa.task }) ∧
    (∀ (l1 l2 : List GNSSFix) (fa : GNSSFix) (a : ℤ),
      fixes = l1 ++ fa :: l2 → fa.rawtime = (a : ℚ) → a ≤ k →
      (∀ g ∈ l2, (k : ℚ) < g.rawtime) →
      (rowAt fixes k).flying = some fa.flying ∧ (rowAt fixes k).circling = some fa.circling ∧
        (rowAt fixes k).task = some fa.task) ∧
    ((∀ g ∈ fixes, (k : ℚ) < g.rawtime) → rowAt fixes k = noneRow) := by
  refine ⟨?_, ?_, ?_⟩
  · rintro l1 l2 fa fb a b rfl ha hb hak hkb
    have hprev := prevAnchor_eq_of_between hsort ha hb hak.le hkb
    have hnext := nextAnchor_eq_of_between hsort ha hb hak hkb.le
    have hne : ¬ ((b, fb) : ℤ × GNSSFix).1 = ((a, fa) : ℤ × GNSSFix).1 := by
      show ¬ b = a
      omega
    have hI : ∀ proj : GNSSFix → ℚ, interpCol (l1 ++ fa :: fb :: l2) proj k
        = some (proj fa + (((k : ℚ) - (a : ℚ)) / ((b : ℚ) - (a : ℚ))) * (proj fb - proj fa)) := by
      intro proj
      rw [interpCol_eq_of_anchors hprev hnext, if_neg hne]
    have hF : ∀ proj : GNSSFix → Bool,
        ffillCol (l1 ++ fa :: fb :: l2) proj k = some (proj fa) := by
      intro proj
      rw [ffillCol, hprev]
      rfl
    rw [rowAt, hI, hI, hI, hI, hI, hI, hF, hF, hF]
  · rintro l1 l2 fa a rfl ha hak hafter
    have hprev := @prevAnchor_eq_of_last l1 l2 fa a k ha hak hafter
    refine ⟨?_, ?_, ?_⟩ <;> · rw [rowAt]; simp only [ffillCol, hprev]; rfl
  · intro hbefore
    have hp := prevAnchor_none_of_before hbefore
    have hIn : ∀ proj : GNSSFix → ℚ, interpCol fixes proj k = none := by
      intro proj
      exact interpCol_none_of_prev_none hp
    have hFn : ∀ proj : GNSSFix → Bool, ffillCol fixes proj k = none := by
      intro proj
      rw [ffillCol, hp]
      rfl
    rw [rowAt, noneRow, hIn, hIn, hIn, hIn, hIn, hIn, hFn, hFn, hFn]

theorem c3_demo_lat_value :
    demoFix1.lat + (((2 : ℚ) - ((1 : ℤ) : ℚ)) / (((3 : ℤ) : ℚ) - ((1 : ℤ) : ℚ)))
        * (demoFix3.lat - demoFix1.lat) = 20 := by
  push_cast
  norm_num [demoFix1, demoFix3]

/-- Witness for C3 at the spec scenario: fixes at 0, 1, 3 s with linearly
varying latitude give `lat = 20` at the sample-free tick 2 (the
time-weighted value between 10 at 1 s and 30 at 3 s), the boolean columns
inherit the 1 s fix, and a tick before the first known sample of the
fractional demo flight is fully undefined. -/
theorem c3_witness :
    (rowAt demo3Fixes 2).lat = some 20 ∧
    (rowAt demo3Fixes 2).flying = some false ∧
    rowAt [demoFixHalf, demoFix3] 0 = noneRow :=
  have h := (c3_resample_semantics demo3Fixes 2 (by decide)).1 [demoFix0] [] demoFix1 demoFix3
    1 3 rfl (by decide) (by decide) (by decide) (by decide)
  ⟨(congrArg FixRow.lat h).trans (congrArg some c3_demo_lat_value),
    congrArg FixRow.flying h,
    (c3_resample_semantics [demoFixHalf, demoFix3] 0 (by decide)).2.2 (by decide)⟩

/-- Counterexample for C3 as stated: with samples at 0 s (lat 0) and the
off-tick 1.5 s (lat 3), the tick 1 lies between two known samples, yet
resampling drops the 1.5 s sample, so the table holds 0 there and not the
time-weighted value 2. -/
theorem c3_counterexample :
    (rowAt [demoLat0, demoLat15] 1).lat = some 0 ∧
    demoLat0.lat + (((1 : ℚ) - demoLat0.rawtime) / (demoLat15.rawtime - demoLat0.rawtime))
        * (demoLat15.lat - demoLat0.lat) = 2 ∧
    ¬ (rowAt [demoLat0, demoLat15] 1).lat
        = some (demoLat0.lat +
            (((1 : ℚ) - demoLat0.rawtime) / (demoLat15.rawtime - demoLat0.rawtime))
              * (demoLat15.lat - demoLat0.lat)) := by
  have h1 : (rowAt [demoLat0, demoLat15] 1).lat = some 0 := by decide
  have h2 : demoLat0.lat +
      (((1 : ℚ) - demoLat0.rawtime) / (demoLat15.rawtime - demoLat0.rawtime))
        * (demoLat15.lat - demoLat0.lat) = 2 := by
    norm_num [demoLat0, demoLat15, Rat.mk'_eq_divInt, Rat.divInt_eq_div]
  refine ⟨h1, h2, ?_⟩
  rw [h1, h2]
  decide

/-- Witness for C8: the demo annotation lines parse to the expected state;
the repeated POINTS field ends at its last value 900, values are trimmed,
and the fix list is untouched. -/
theorem c8_witness :
    parse_l_records c8init c8records = .ok c8out ∧ c8out.fixes = c8init.fixes ∧
    c8out.points = some 900 ∧ c8out.start = some "10:00:00" ∧
    c8out.pilot = some "J. Doe" ∧ c8out.finish = none :=
  have hparse : parse_l_records c8init c8records = .ok c8out := by rfl
  ⟨hparse, (c8_lscr_fold c8records c8init c8out hparse).1, rfl, rfl, rfl, rfl⟩

/-- Counterexample for C5 as stated: the raw stream 100 s, 200 s, 100 s
passes deduplication unchanged, and its fix sequence then repeats the
timestamp 100 s, so the duplicate-timestamp branch is reachable. -/
theorem c5_counterexample :
    ¬ (((buildFixes [some demoFixA, some demoFix200, some demoFixA]).map
        (fun f => f.rawtime)).Nodup) := by
  have h : buildFixes [some demoFixA, some demoFix200, some demoFixA]
      = [demoFixA, demoFix200, demoFixA] := by
    rw [buildFixes, List.foldl_cons, List.foldl_cons, List.foldl_cons, List.foldl_nil,
      dedupStep_empty, dedupStep_far getLast?_demoA far_demo_200_100,
      dedupStep_far (List.getLast?_concat _) far_demo_100_200]
    rfl
  rw [h]
  decide

theorem processFlight_invalid {f : Flight} (hv : f.valid = false) :
    processFlight f = .error (invalidMsg f) := by
  rw [processFlight, if_pos hv]

theorem processFlight_ok {f : Flight} (hv : f.valid = true)
    (hnd : (f.fixes.map (fun x => x.rawtime)).Nodup) (hne : f.fixes ≠ []) :
    processFlight f = .ok (metadataRow f, fixRowsTagged f, thermalRowsTagged f) := by
  have hempty : f.fixes.isEmpty = false := by
    cases hfx : f.fixes with
    | nil => exact absurd hfx hne
    | cons a l => rfl
  rw [processFlight, if_neg (by simp [hv]), if_neg (not_not.mpr hnd),
    if_neg (by simp [hempty])]

theorem metadataRow_key (f : Flight) : (metadataRow f).key = f.key := rfl

theorem ftd_cons_error {g : Flight} {t : List Flight} {e : String}
    (hg : processFlight g = .error e) :
    flights_to_dataframes (g :: t) = .error e := by
  rw [flights_to_dataframes, List.mapM_cons, hg]
  rfl

theorem mapM_processFlight_ok (flights : List Flight)
    (hall : ∀ f ∈ flights, f.valid = true ∧
      (f.fixes.map (fun x => x.rawtime)).Nodup ∧ f.fixes ≠ []) :
    flights.mapM processFlight
      = .ok (flights.map (fun f => (metadataRow f, fixRowsTagged f, thermalRowsTagged f))) := by
  induction flights with
  | nil => rfl
  | cons g t ih =>
    obtain ⟨hv, hnd, hfe⟩ := hall g (List.mem_cons_self g t)
    rw [List.mapM_cons, processFlight_ok hv hnd hfe,
      ih (fun f hf => hall f (List.mem_cons_of_mem g hf))]
    rfl

theorem flights_to_dataframes_ok (flights : List Flight) (hne : flights ≠ [])
    (hall : ∀ f ∈ flights, f.valid = true ∧
      (f.fixes.map (fun x => x.rawtime)).Nodup ∧ f.fixes ≠ []) :
    flights_to_dataframes flights
      = .ok (flights.map metadataRow, (flights.map fixRowsTagged).flatten,
          (flights.map thermalRowsTagged).flatten) := by
  rw [flights_to_dataframes, mapM_processFlight_ok flights hall]
  rcases flights with _ | ⟨g, t⟩
  · exact absurd rfl hne
  · simp [Except.bind, List.map_map, Function.comp_def]

theorem mapM_error_of_invalid (flights : List Flight)
    (hwf : ∀ g ∈ flights, g.valid = true →
      ((g.fixes.map (fun x => x.rawtime)).Nodup ∧ g.fixes ≠ []))
    (hex : ∃ f ∈ flights, f.valid = false) :
    ∃ g ∈ flights, g.valid = false ∧
      flights.mapM processFlight = .error (invalidMsg g) := by
  induction flights with
  | nil =>
    rcases hex with ⟨f, hf, -⟩
    exact absurd hf (List.not_mem_nil f)
  | cons g t ih =>
    cases hv : g.valid with
    | false =>
      refine ⟨g, List.mem_cons_self g t, hv, ?_⟩
      rw [List.mapM_cons, processFlight_invalid hv]
      rfl
    | true =>
      obtain ⟨hnd, hfe⟩ := hwf g (List.mem_cons_self g t) hv
      have hex2 : ∃ f ∈ t, f.valid = false := by
        rcases hex with ⟨f, hf, hfv⟩
        rcases List.mem_cons.mp hf with rfl | hft
        · rw [hv] at hfv; exact absurd hfv (by simp)
        · exact ⟨f, hft, hfv⟩
      obtain ⟨g2, hg2, hv2, heq⟩ := ih (fun x hx hxv => hwf x (List.mem_cons_of_mem g hx) hxv) hex2
      refine ⟨g2, List.mem_cons_of_mem g hg2, hv2, ?_⟩
      rw [List.mapM_cons, processFlight_ok hv hnd hfe, heq]
      rfl

theorem ftd_error_of_invalid (flights : List Flight)
    (hwf : ∀ g ∈ flights, g.valid = true →
      ((g.fixes.map (fun x => x.rawtime)).Nodup ∧ g.fixes ≠ []))
    (hex : ∃ f ∈ flights, f.valid = false) :
    ∃ g ∈ flights, g.valid = false ∧ flights_to_dataframes flights = .error (invalidMsg g) := by
  obtain ⟨g, hg, hv, heq⟩ := mapM_error_of_invalid flights hwf hex
  exact ⟨g, hg, hv, by rw [flights_to_dataframes, heq]; rfl⟩

/-- C4 (amended): with no pre-filtering, aggregation errors with the
invalid flight's InvalidFlightError message as soon as an invalid flight
is hit, producing no corpora; with the driver's validity pre-filter,
provided at least one valid flight remains after filtering, aggregation
succeeds and the invalid flight's key is absent from all three corpora.
(When no valid flight remains, the empty concatenation itself raises,
see the counterexample.) -/
theorem c4_strict_lenient (flights : List Flight) (f : Flight)
    (hf : f ∈ flights) (hinv : f.valid = false)
    (hvalid : ∃ g ∈ flights, g.valid = true)
    (hwf : ∀ g ∈ flights, g.valid = true →
      ((g.fixes.map (fun x => x.rawtime)).Nodup ∧ g.fixes ≠ []))
    (hkey : ∀ g ∈ flights, g.key = f.key → g = f) :
    (∃ g ∈ flights, g.valid = false ∧ flights_to_dataframes flights = .error (invalidMsg g)) ∧
    ∃ md fx th, driverDataframes flights = .ok (md, fx, th) ∧
      (∀ r ∈ md, r.key ≠ f.key) ∧ (∀ r ∈ fx, r.1 ≠ f.key) ∧ (∀ r ∈ th, r.1 ≠ f.key) := by
  constructor
  · exact ftd_error_of_invalid flights hwf ⟨f, hf, hinv⟩
  · have hfl : ∀ g ∈ flights.filter (fun x => x.valid), g.valid = true ∧
        (g.fixes.map (fun x => x.rawtime)).Nodup ∧ g.fixes ≠ [] := by
      intro g hg
      obtain ⟨hgm, hgv⟩ := List.mem_filter.mp hg
      exact ⟨hgv, (hwf g hgm hgv).1, (hwf g hgm hgv).2⟩
    have hfilne : flights.filter (fun x => x.valid) ≠ [] := by
      rcases hvalid with ⟨g, hg, hgv⟩
      have hmem : g ∈ flights.filter (fun x => x.valid) :=
        List.mem_filter.mpr ⟨hg, hgv⟩
      intro hemp
      rw [hemp] at hmem
      exact List.not_mem_nil g hmem
    have hok := flights_to_dataframes_ok (flights.filter (fun x => x.valid)) hfilne hfl
    have hnotf : ∀ g ∈ flights.filter (fun x => x.valid), g.key ≠ f.key := by
      intro g hg hkeq
      obtain ⟨hgm, hgv⟩ := List.mem_filter.mp hg
      have hgf : g = f := hkey g hgm hkeq
      rw [hgf, hinv] at hgv
      exact Bool.noConfusion hgv
    refine ⟨_, _, _, hok, ?_, ?_, ?_⟩
    · intro r hr
      rcases List.mem_map.mp hr with ⟨g, hg, rfl⟩
      rw [metadataRow_key]
      exact hnotf g hg
    · intro r hr
      rcases List.mem_flatten.mp hr with ⟨l, hl, hrl⟩
      rcases List.mem_map.mp hl with ⟨g, hg, rfl⟩
      rcases List.mem_map.mp hrl with ⟨p, -, rfl⟩
      exact hnotf g hg
    · intro r hr
      rcases List.mem_flatten.mp hr with ⟨l, hl, hrl⟩
      rcases List.mem_map.mp hl with ⟨g, hg, rfl⟩
      rcases List.mem_map.mp hrl with ⟨p, -, rfl⟩
      exact hnotf g hg

/-- Witness for C4: with the invalid demo flight next to a valid one,
strict aggregation errors and lenient aggregation omits its key. -/
theorem c4_witness :
    (∃ g ∈ [c6fA, c4bad], g.valid = false ∧
      flights_to_dataframes [c6fA, c4bad] = .error (invalidMsg g)) ∧
    ∃ md fx th, driverDataframes [c6fA, c4bad] = .ok (md, fx, th) ∧
      (∀ r ∈ md, r.key ≠ c4bad.key) ∧ (∀ r ∈ fx, r.1 ≠ c4bad.key) ∧
      (∀ r ∈ th, r.1 ≠ c4bad.key) :=
  c4_strict_lenient [c6fA, c4bad] c4bad (by decide) rfl (by decide) (by decide) (by decide)

/-- Counterexample for C4 as stated: when the batch holds only the invalid
flight, lenient aggregation filters everything away and `pd.concat` of no
frames raises a ValueError — an error is raised even though the invalid
flight was pre-filtered, and no corpora are produced. -/
theorem c4_counterexample :
    driverDataframes [c4bad] = .error "ValueError: No objects to concatenate" := rfl

theorem charsLtb_irrefl (l : List Char) : charsLtb l l = false := by
  induction l with
  | nil => rfl
  | cons a as ih => simp [charsLtb, Nat.lt_irrefl, ih]

theorem strLtb_irrefl (s : String) : strLtb s s = false := charsLtb_irrefl s.data

theorem keyLt_ne {a b : FlightKey} (h : keyLt a b) : a ≠ b := by
  rintro rfl
  rcases h with h | ⟨-, h | ⟨-, h⟩⟩ <;> rw [strLtb_irrefl] at h <;> exact Bool.noConfusion h

theorem fixRowLt_ne {u v : FlightKey × ℤ × FixRow} (h : fixRowLt u v) :
    (u.1, u.2.1) ≠ (v.1, v.2.1) := by
  intro hp
  rw [Prod.mk.injEq] at hp
  rcases h with h | ⟨-, h⟩
  · exact keyLt_ne h hp.1
  · exact h.ne hp.2

theorem thermalRowLt_ne {u v : FlightKey × ℚ × ℚ} (h : thermalRowLt u v) :
    (u.1, u.2.1) ≠ (v.1, v.2.1) := by
  intro hp
  rw [Prod.mk.injEq] at hp
  rcases h with h | ⟨-, h⟩
  · exact keyLt_ne h hp.1
  · exact h.ne hp.2

theorem fixTicks_pairwise (fixes : List GNSSFix) : (fixTicks fixes).Pairwise (· < ·) := by
  unfold fixTicks
  cases h0 : fixes.head? with
  | none => cases h1 : fixes.getLast? <;> exact List.Pairwise.nil
  | some f0 =>
    cases h1 : fixes.getLast? with
    | none => exact List.Pairwise.nil
    | some f1 =>
      refine List.pairwise_map.mpr ?_
      refine (List.pairwise_lt_range _).imp ?_
      intro i j hij
      omega

theorem fixRowsTagged_pairwise {g : Flight} : (fixRowsTagged g).Pairwise fixRowLt := by
  refine List.pairwise_map.mpr ?_
  have hts : (fixTableRows g.fixes).Pairwise (fun p q => p.1 < q.1) := by
    refine List.pairwise_map.mpr ?_
    exact (fixTicks_pairwise g.fixes).imp (fun h => h)
  exact hts.imp (fun hpq => Or.inr ⟨rfl, hpq⟩)

/-- C6 (amended): when valid flights are supplied in strictly increasing
flight-key order (with per-flight thermals in increasing enter-time
order), aggregation succeeds and the metadata corpus is sorted by flight
key while the fix and thermal corpora are sorted by (flight key,
timestamp) with no duplicate (flight key, timestamp) pairs.  (The code
never sorts after concatenation, so for inputs out of key order the
corpora are unsorted, see the counterexample.) -/
theorem c6_sorted_corpora (flights : List Flight) (hne : flights ≠ [])
    (hall : ∀ f ∈ flights, f.valid = true ∧
      (f.fixes.map (fun x => x.rawtime)).Nodup ∧ f.fixes ≠ [])
    (hth : ∀ g ∈ flights,
      g.thermals.Pairwise (fun u v => u.enter_fix.rawtime < v.enter_fix.rawtime))
    (hkeys : flights.Pairwise (fun u v => keyLt u.key v.key)) :
    ∃ md fx th, flights_to_dataframes flights = .ok (md, fx, th) ∧
      md.Pairwise (fun u v => keyLt u.key v.key) ∧
      fx.Pairwise fixRowLt ∧
      fx.Pairwise (fun u v => (u.1, u.2.1) ≠ (v.1, v.2.1)) ∧
      th.Pairwise thermalRowLt ∧
      th.Pairwise (fun u v => (u.1, u.2.1) ≠ (v.1, v.2.1)) := by
  have hok := flights_to_dataframes_ok flights hne hall
  have hfx : ((flights.map fixRowsTagged).flatten).Pairwise fixRowLt := by
    refine List.pairwise_flatten.mpr ⟨?_, ?_⟩
    · intro l hl
      rcases List.mem_map.mp hl with ⟨g, -, rfl⟩
      exact fixRowsTagged_pairwise
    · refine List.pairwise_map.mpr ?_
      refine hkeys.imp ?_
      intro u v huv x hx y hy
      rcases List.mem_map.mp hx with ⟨p, -, rfl⟩
      rcases List.mem_map.mp hy with ⟨q, -, rfl⟩
      exact Or.inl huv
  have hthp : ((flights.map thermalRowsTagged).flatten).Pairwise thermalRowLt := by
    refine List.pairwise_flatten.mpr ⟨?_, ?_⟩
    · intro l hl
      rcases List.mem_map.mp hl with ⟨g, hg, rfl⟩
      refine List.pairwise_map.mpr ?_
      exact (hth g hg).imp (fun h => Or.inr ⟨rfl, h⟩)
    · refine List.pairwise_map.mpr ?_
      refine hkeys.imp ?_
      intro u v huv x hx y hy
      rcases List.mem_map.mp hx with ⟨p, -, rfl⟩
      rcases List.mem_map.mp hy with ⟨q, -, rfl⟩
      exact Or.inl huv
  refine ⟨_, _, _, hok, ?_, hfx, hfx.imp fixRowLt_ne, hthp, hthp.imp thermalRowLt_ne⟩
  refine List.pairwise_map.mpr ?_
  exact hkeys.imp (fun hab => by rwa [metadataRow_key, metadataRow_key])

/-- Witness for C6 on two valid demo flights supplied in key order. -/
theorem c6_witness :
    ∃ md fx th, flights_to_dataframes [c6fA, c6fB] = .ok (md, fx, th) ∧
      md.Pairwise (fun u v => keyLt u.key v.key) ∧
      fx.Pairwise fixRowLt ∧
      fx.Pairwise (fun u v => (u.1, u.2.1) ≠ (v.1, v.2.1)) ∧
      th.Pairwise thermalRowLt ∧
      th.Pairwise (fun u v => (u.1, u.2.1) ≠ (v.1, v.2.1)) :=
  c6_sorted_corpora [c6fA, c6fB] (by decide) (by decide) (by decide) (by decide)

/-- Counterexample for C6 as stated: `pd.concat` preserves input order and
nothing sorts afterwards, so feeding the valid flights in reverse key
order yields corpora that are not sorted by flight key. -/
theorem c6_counterexample :
    ∃ md fx th, flights_to_dataframes [c6fB, c6fA] = .ok (md, fx, th) ∧
      ¬ md.Pairwise (fun u v => keyLt u.key v.key) ∧ ¬ fx.Pairwise fixRowLt := by
  refine ⟨_, _, _, flights_to_dataframes_ok [c6fB, c6fA] (by decide) (by decide), ?_, ?_⟩
  · decide
  · decide

/-- C9 (amended): the one-row metadata record built for a valid flight
carries exactly the pilot and the points under the (code, id, date) key;
competition name, class and start/finish instants are not part of it and
no timezone conversion happens in the normalizer. -/
theorem c9_metadata_row (f : Flight) (hv : f.valid = true)
    (hnd : (f.fixes.map (fun x => x.rawtime)).Nodup) (hne : f.fixes ≠ []) :
    metadataRow f
      = MetadataRow.mk f.fr_manuf_code f.fr_uniq_id f.date f.pilot f.points ∧
    flights_to_dataframes [f] = .ok ([metadataRow f], fixRowsTagged f, thermalRowsTagged f) := by
  refine ⟨rfl, ?_⟩
  have h := flights_to_dataframes_ok [f] (List.cons_ne_nil f []) ?_
  · simpa using h
  · intro g hg
    rcases List.mem_singleton.mp hg with rfl
    exact ⟨hv, hnd, hne⟩

/-- Witness for C9 on the demo flight with competition metadata. -/
theorem c9_witness :
    metadataRow c9flightA = MetadataRow.mk c9flightA.fr_manuf_code c9flightA.fr_uniq_id
      c9flightA.date c9flightA.pilot c9flightA.points ∧
    flights_to_dataframes [c9flightA]
      = .ok ([metadataRow c9flightA], fixRowsTagged c9flightA, thermalRowsTagged c9flightA) :=
  c9_metadata_row c9flightA rfl (by decide) (by decide)

/-- Counterexample for C9 as stated: two flights differing only in
competition name, class, start and finish produce identical metadata
rows, so the row cannot contain any of those fields, let alone
UTC-normalized instants. -/
theorem c9_counterexample :
    metadataRow c9flightA = metadataRow c9flightB ∧
    c9flightA.competition ≠ c9flightB.competition ∧
    c9flightA.competition_class ≠ c9flightB.competition_class ∧
    c9flightA.start ≠ c9flightB.start ∧
    c9flightA.finish ≠ c9flightB.finish := by
  decide

/-- C10 (spec-modelled): `inTaskWindow` is true iff the flight key has
metadata start and finish and `start <= timestamp < finish`; it is true
at exactly `start` (when the window is nonempty), false at exactly
`finish`, and false when the key has no metadata row or its start or
finish is missing. -/
theorem c10_in_task_window (corpus : List TaskMetaRow) (k : FlightKey) (ts s fin : ℚ)
    (r : TaskMetaRow) (hr : lookupTaskMeta corpus k = some r)
    (hs : r.start = some s) (hf : r.finish = some fin) :
    ((inTaskWindow k ts corpus = true) ↔ (s ≤ ts ∧ ts < fin)) ∧
    (s < fin → inTaskWindow k s corpus = true) ∧
    inTaskWindow k fin corpus = false ∧
    (∀ (k2 : FlightKey) (ts2 : ℚ), lookupTaskMeta corpus k2 = none →
      inTaskWindow k2 ts2 corpus = false) ∧
    (∀ (k2 : FlightKey) (ts2 : ℚ) (r2 : TaskMetaRow), lookupTaskMeta corpus k2 = some r2 →
      r2.start = none ∨ r2.finish = none → inTaskWindow k2 ts2 corpus = false) := by
  have hw : ∀ ts2 : ℚ, inTaskWindow k ts2 corpus = decide (s ≤ ts2 ∧ ts2 < fin) := by
    intro ts2
    have h1 : inTaskWindow k ts2 corpus
        = (match r.start, r.finish with
           | some s2, some f2 => decide (s2 ≤ ts2 ∧ ts2 < f2)
           | _, _ => false) := by
      rw [inTaskWindow, hr]
    rw [h1, hs, hf]
  refine ⟨?_, ?_, ?_, ?_, ?_⟩
  · rw [hw]
    exact decide_eq_true_iff
  · intro hlt
    rw [hw]
    simp only [decide_eq_true_eq]
    exact ⟨le_refl s, hlt⟩
  · rw [hw]
    simp only [decide_eq_false_iff_not]
    rintro ⟨-, hlt⟩
    exact lt_irrefl fin hlt
  · intro k2 ts2 hnone
    rw [inTaskWindow, hnone]
  · intro k2 ts2 r2 hr2 hcase
    have h1 : inTaskWindow k2 ts2 corpus
        = (match r2.start, r2.finish with
           | some s2, some f2 => decide (s2 ≤ ts2 ∧ ts2 < f2)
           | _, _ => false) := by
      rw [inTaskWindow, hr2]
    rcases hcase with hc | hc
    · cases hfin : r2.finish <;> rw [h1, hc, hfin]
    · cases hst : r2.start <;> rw [h1, hst, hc]

/-- Witness for C10 on the demo corpus: window [100, 200) of the demo key,
half-open at both ends, and false for the row lacking a start. -/
theorem c10_witness :
    ((inTaskWindow ("XYZ", "17", "2024-06-01") 150 c10corpus = true) ↔
      ((100 : ℚ) ≤ 150 ∧ (150 : ℚ) < 200)) ∧
    inTaskWindow ("XYZ", "17", "2024-06-01") 100 c10corpus = true ∧
    inTaskWindow ("XYZ", "17", "2024-06-01") 200 c10corpus = false ∧
    inTaskWindow ("AAA", "1", "2024-06-01") 3 c10corpus = false :=
  have h := c10_in_task_window c10corpus ("XYZ", "17", "2024-06-01") 150 100 200 c10meta
    (by decide) rfl rfl
  ⟨h.1, h.2.1 (by decide), h.2.2.1,
    h.2.2.2.2 ("AAA", "1", "2024-06-01") 3
      (TaskMetaRow.mk ("AAA", "1", "2024-06-01") none (some 5))
      (by decide) (Or.inl rfl)⟩

end IgcLab
